import Mathlib

/-!
Verification of the PV clipping and EEG economics dashboard
(streamlit_app.py).  This file gives a shallow embedding of the
time-series loader and of the clipping/economics engine, and proves
theorems checking the specification claims against the embedded code.

Conventions: real-valued quantities are modelled as rationals; a float
NaN produced by the code is modelled as none; timestamps are absolute
minute indices in a proleptic Gregorian calendar, so that the 15-minute
alignment tolerance of the engine is exact.
-/

/-- An absolute calendar timestamp at minute granularity, as produced by
the timestamp parser of load_series. -/
structure DT where
  year : Nat
  month : Nat
  day : Nat
  hour : Nat
  minute : Nat
deriving DecidableEq, Repr

/-- Gregorian leap-year rule. -/
def isLeap (y : Nat) : Bool :=
  y % 4 == 0 && (y % 100 != 0 || y % 400 == 0)

/-- Number of days in a month of year y (Gregorian). -/
def daysInMonth (y m : Nat) : Nat :=
  if m == 2 then (if isLeap y then 29 else 28)
  else if m == 4 || m == 6 || m == 9 || m == 11 then 30
  else 31

/-- Days contributed by the months of year y strictly before month m. -/
def daysBeforeMonth (y m : Nat) : Nat :=
  (List.range (m - 1)).foldl (fun acc i => acc + daysInMonth y (i + 1)) 0

/-- Number of leap years strictly before year y (proleptic Gregorian). -/
def leapsBefore (y : Nat) : Nat :=
  (y - 1) / 4 - (y - 1) / 100 + (y - 1) / 400

/-- Absolute minute index of a timestamp: days since the proleptic epoch,
then hours and minutes.  Minute differences between valid timestamps are
exact, which makes the 15-minute alignment tolerance faithful. -/
def DT.minutes (d : DT) : Int :=
  (((d.year * 365 + leapsBefore d.year + daysBeforeMonth d.year d.month
      + (d.day - 1)) * 24 + d.hour) * 60 + d.minute : Nat)

/-- Whitespace test used by the trim of line 48. -/
def isWS (c : Char) : Bool :=
  c == ' ' || c == '\t' || c == '\n' || c == '\r'

/-- Models str.strip: drop whitespace from both ends of the label. -/
def trimChars (l : List Char) : List Char :=
  ((l.dropWhile isWS).reverse.dropWhile isWS).reverse

/-- Models str.split on a single-character separator. -/
def splitOnChar (sep : Char) : List Char → List (List Char)
  | [] => [[]]
  | c :: cs =>
    if c == sep then [] :: splitOnChar sep cs
    else
      match splitOnChar sep cs with
      | [] => [[c]]
      | h :: t => (c :: h) :: t

/-- Models str.split with maxsplit 1: the part before the first
separator and, when a separator occurs, the untouched remainder. -/
def splitFirst (sep : Char) : List Char → List Char × Option (List Char)
  | [] => ([], none)
  | c :: cs =>
    if c == sep then ([], some cs)
    else (c :: (splitFirst sep cs).1, (splitFirst sep cs).2)

/-- Sublist-at-front test for the substring check below. -/
def leadsWith : List Char → List Char → Bool
  | [], _ => true
  | _ :: _, [] => false
  | a :: as, b :: bs => a == b && leadsWith as bs

/-- Models the Python in operator on strings: pat occurs somewhere. -/
def containsSub (pat : List Char) : List Char → Bool
  | [] => leadsWith pat []
  | c :: cs => leadsWith pat (c :: cs) || containsSub pat cs

/-- True when the label contains the substring nan or NaN; load_series
skips such rows before attempting any parse (line 45). -/
def containsNan (s : String) : Bool :=
  containsSub "nan".data s.data || containsSub "NaN".data s.data

/-- Numeric value of a decimal digit character. -/
def charDigit? (c : Char) : Option Nat :=
  if c.isDigit then some (c.toNat - 48) else none

/-- Parse of a non-empty all-digit character run as a natural number. -/
def digitsToNat? (l : List Char) : Option Nat :=
  match l with
  | [] => none
  | _ :: _ =>
    l.foldl (fun acc c =>
      match acc, charDigit? c with
      | some n, some d => some (n * 10 + d)
      | _, _ => none) (some 0)

/-- Strict parse of a clock time written HH:MM. -/
def parseTime (t : List Char) : Option (Nat × Nat) :=
  match splitOnChar ':' t with
  | [h, m] =>
    match digitsToNat? h, digitsToNat? m with
    | some hh, some mm => if hh < 24 && mm < 60 then some (hh, mm) else none
    | _, _ => none
  | _ => none

/-- Two-digit years are expanded with a leading 20; four-digit years are
kept; anything else fails. -/
def expandYear (ys : List Char) : Option Nat :=
  match digitsToNat? ys with
  | some y =>
    if ys.length == 4 then some y
    else if ys.length == 2 then some (2000 + y) else none
  | none => none

/-- Calendar validity of a day/month pair in year y. -/
def dateOK (y m d : Nat) : Bool :=
  decide (1 ≤ m ∧ m ≤ 12 ∧ 1 ≤ d ∧ d ≤ daysInMonth y m)

/-- Parse of a dotted day-first date, DD.MM.YYYY or DD.MM.YY, returning
day, month and year. -/
def parseDMY (ds : List Char) : Option (Nat × Nat × Nat) :=
  match splitOnChar '.' ds with
  | [d, m, ys] =>
    match digitsToNat? d, digitsToNat? m, expandYear ys with
    | some dd, some mm, some y =>
      if dateOK y mm dd then some (dd, mm, y) else none
    | _, _, _ => none
  | _ => none

/-- Models the library call pd.to_datetime with dayfirst on the dotted
day-first label grammar this application receives: DD.MM.YYYY HH:MM,
DD.MM.YY HH:MM, and bare DD.MM.YYYY.  Any other label shape is modelled
as a parse failure. -/
def pd_to_datetime (s : List Char) : Option DT :=
  match splitOnChar ' ' s with
  | [ds] =>
    match parseDMY ds with
    | some (d, m, y) => some ⟨y, m, d, 0, 0⟩
    | none => none
  | [ds, ts] =>
    match parseDMY ds, parseTime ts with
    | some (d, m, y), some (hh, mm) => some ⟨y, m, d, hh, mm⟩
    | _, _ => none
  | _ => none

/-- Models the replace call of line 58 that rewrites the year to the
fixed target year 2025.  When the parsed day does not exist in 2025
(29 February of a leap year), the replace call raises and the enclosing
except leaves the originally parsed timestamp in place. -/
def forceTargetYear (dt : DT) : DT :=
  if dt.day ≤ daysInMonth 2025 dt.month then
    ⟨2025, dt.month, dt.day, dt.hour, dt.minute⟩
  else dt

/-- Strategy 1 of load_series (lines 54-60): pandas auto-parsing, then
replacement of the year by the fixed target year 2025 when it differs. -/
def strategy1 (s : List Char) : Option DT :=
  match pd_to_datetime s with
  | some dt => if dt.year ≠ 2025 then some (forceTargetYear dt) else some dt
  | none => none

/-- Strategy 2 of load_series (lines 63-72): manual handling of year-less
labels such as 01.01. 00:00.  Split at the first space, require a
trailing dot on the date part and exactly two dotted fields, then parse
with the target year 2025 inserted, in the strict day-month-year
hour-minute format. -/
def strategy2 (s : List Char) : Option DT :=
  match splitFirst ' ' s with
  | (_, none) => none
  | (datePart, some timePart) =>
    if datePart.getLast? == some '.' then
      match splitOnChar '.' datePart.dropLast with
      | [day, month] =>
        match digitsToNat? day, digitsToNat? month, parseTime timePart with
        | some d, some m, some (hh, mm) =>
          if dateOK 2025 m d then some ⟨2025, m, d, hh, mm⟩ else none
        | _, _, _ => none
      | _ => none
    else none

/-- Strategy 3 of load_series (lines 75-84): date-only labels.  When the
label contains a dot and no colon, take the first two dot-separated
fields as day and month and parse with the target year 2025 at
midnight. -/
def strategy3 (s : List Char) : Option DT :=
  if s.contains '.' && !(s.contains ':') then
    match splitOnChar '.' s with
    | day :: month :: _ =>
      match digitsToNat? day, digitsToNat? month with
      | some d, some m =>
        if dateOK 2025 m d then some ⟨2025, m, d, 0, 0⟩ else none
      | _, _ => none
    | _ => none
  else none

/-- The per-row timestamp parsing cascade of load_series (lines 42-93):
skip labels containing nan, trim whitespace, then try the three
strategies in order.  A none result means the row is dropped with a
warning and the load continues. -/
def parse_timestamp (s : String) : Option DT :=
  if containsNan s then none
  else
    let t := trimChars s.data
    match strategy1 t with
    | some dt => some dt
    | none =>
      match strategy2 t with
      | some dt => some dt
      | none => strategy3 t

/-- Ordered insertion by timestamp key, ascending. -/
def insertByKey (x : Int × ℚ) : List (Int × ℚ) → List (Int × ℚ)
  | [] => [x]
  | y :: ys => if x.1 ≤ y.1 then x :: y :: ys else y :: insertByKey x ys

/-- Sort of a keyed series by ascending timestamp, modelling the
sort_index call of line 105.  Equal keys are kept, not merged. -/
def sortByKey : List (Int × ℚ) → List (Int × ℚ)
  | [] => []
  | x :: xs => insertByKey x (sortByKey xs)

/-- The parsed_timestamps list collected by the row loop of lines 42-93:
the timestamps of the rows whose label parses, in row order. -/
def parsedStamps (rows : List (String × ℚ)) : List Int :=
  (rows.map Prod.fst).filterMap (fun s => (parse_timestamp s).map DT.minutes)

/-- Embedding of load_series (lines 22-118).  A row is a (label, value)
pair of the two input columns.  Each label runs through the parsing
cascade; if no timestamp parses the load fails.  Otherwise the parsed
timestamps are paired with the FIRST len(parsed) entries of the value
column - the positional truncation of line 100 - and the series is
sorted by timestamp. -/
def load_series (rows : List (String × ℚ)) : Option (List (Int × ℚ)) :=
  if (parsedStamps rows).isEmpty then none
  else
    some (sortByKey ((parsedStamps rows).zip
      ((rows.map Prod.snd).take (parsedStamps rows).length)))

/-- Price unit conversion of line 188: euro per MWh to cent per kWh. -/
def pricesCt (pricesA : List (Int × ℚ)) : List (Int × ℚ) :=
  pricesA.map (fun p => (p.1, p.2 / 10))

/-- EEG revenue series of line 191: aligned pv energy times the tariff,
in cents, with no dependence on the market price. -/
def eegSeries (pvA : List (Int × ℚ)) (tariff : ℚ) : List (Int × ℚ) :=
  pvA.map (fun p => (p.1, p.2 * tariff))

/-- Market revenue series of line 194: pointwise product of aligned pv
energy and the price in cent per kWh. -/
def marketSeries (pvA pricesA : List (Int × ℚ)) : List (Int × ℚ) :=
  List.zipWith (fun a b => (a.1, a.2 * b.2)) pvA (pricesCt pricesA)

/-- Opportunity cost series of line 197: market minus EEG revenue. -/
def oppSeries (pvA pricesA : List (Int × ℚ)) (tariff : ℚ) : List (Int × ℚ) :=
  List.zipWith (fun a b => (a.1, a.2 - b.2))
    (marketSeries pvA pricesA) (eegSeries pvA tariff)

/-- Sum of the value column of a keyed series (the pandas sum calls). -/
def sumVals (xs : List (Int × ℚ)) : ℚ := (xs.map Prod.snd).sum

/-- A value of the results dict of calculate_economics: either a keyed
series or a scalar. -/
inductive EconValue where
  | series : List (Int × ℚ) → EconValue
  | scalar : ℚ → EconValue
deriving DecidableEq, Repr

/-- The results dict literal of lines 199-209, keyed exactly as in the
source. -/
def econ_results (pvA pricesA : List (Int × ℚ)) (tariff : ℚ) :
    List (String × EconValue) :=
  [("pv_energy", EconValue.series pvA),
   ("prices", EconValue.series (pricesCt pricesA)),
   ("eeg_revenue", EconValue.series (eegSeries pvA tariff)),
   ("market_revenue", EconValue.series (marketSeries pvA pricesA)),
   ("opportunity_cost", EconValue.series (oppSeries pvA pricesA tariff)),
   ("total_pv_kwh", EconValue.scalar (sumVals pvA)),
   ("total_eeg_revenue", EconValue.scalar (sumVals (eegSeries pvA tariff))),
   ("total_market_revenue",
     EconValue.scalar (sumVals (marketSeries pvA pricesA))),
   ("total_opportunity_cost",
     EconValue.scalar (sumVals (oppSeries pvA pricesA tariff)))]

/-- Value lookup in a keyed series, with the reindex fill value 0 of
lines 183-184 for absent keys. -/
def lookupVal (xs : List (Int × ℚ)) (t : Int) : ℚ :=
  match xs.find? (fun p => p.1 == t) with
  | some p => p.2
  | none => 0

/-- The exact-timestamp intersection of line 150: pv index values that
also occur in the price index, deduplicated as pandas intersection is. -/
def commonIndex (pv price : List (Int × ℚ)) : List Int :=
  ((pv.map Prod.fst).filter (fun t => (price.map Prod.fst).contains t)).dedup

/-- The entry of the price series whose key is nearest to t; the first
entry wins ties, matching a deterministic nearest reindex. -/
def nearestEntry (price : List (Int × ℚ)) (t : Int) : Option (Int × ℚ) :=
  price.foldl (fun best p =>
    match best with
    | none => some p
    | some b => if (p.1 - t).natAbs < (b.1 - t).natAbs then some p else some b)
    none

/-- Models the nearest reindex with 15-minute tolerance of line 160: the
value of the nearest price key when it lies within 15 minutes of t,
otherwise NaN, modelled as none. -/
def nearestWithin (price : List (Int × ℚ)) (t : Int) : Option ℚ :=
  match nearestEntry price t with
  | some b => if (b.1 - t).natAbs ≤ 15 then some b.2 else none
  | none => none

/-- The alignment stage of calculate_economics (lines 150-185).  When
the exact intersection is non-empty both series are reindexed onto it;
otherwise the price series is matched onto the pv index by nearest key
within 15 minutes and rows without a match are dropped; when nothing
remains the analysis fails (returns None). -/
def alignPair (pv price : List (Int × ℚ)) :
    Option (List (Int × ℚ) × List (Int × ℚ)) :=
  if (commonIndex pv price).isEmpty then
    if (pv.filter (fun p => (nearestWithin price p.1).isSome)).isEmpty then none
    else some (pv.filter (fun p => (nearestWithin price p.1).isSome),
      (pv.filter (fun p => (nearestWithin price p.1).isSome)).map
        (fun p => (p.1, (nearestWithin price p.1).getD 0)))
  else
    some ((commonIndex pv price).map (fun t => (t, lookupVal pv t)),
          (commonIndex pv price).map (fun t => (t, lookupVal price t)))

/-- Embedding of calculate_economics (lines 138-211): align the two
series, then build the results dict. -/
def calculate_economics (pv price : List (Int × ℚ)) (tariff : ℚ) :
    Option (List (String × EconValue)) :=
  (alignPair pv price).map (fun ab => econ_results ab.1 ab.2 tariff)

/-- Embedding of calculate_clipping_loss (lines 120-136): power is
energy times 4, clipped at max_power_kw from above, and both clipped
power and the clipping loss are converted back to energy.  Returns
(clipped_energy, clipping_loss_energy). -/
def calculate_clipping_loss (pv : List (Int × ℚ)) (maxp : ℚ) :
    List (Int × ℚ) × List (Int × ℚ) :=
  let power := pv.map (fun p => (p.1, p.2 * 4))
  let clipped_power := power.map (fun p => (p.1, min p.2 maxp))
  let clipping_loss := List.zipWith (fun a b => (a.1, a.2 - b.2))
    power clipped_power
  (clipped_power.map (fun p => (p.1, p.2 / 4)),
   clipping_loss.map (fun p => (p.1, p.2 / 4)))

/-- The module-body gate of lines 224-238: clipping is applied to the pv
series only when max_power_kw is strictly positive; at 0 the raw series
is used unchanged. -/
def analysis_pv (pv : List (Int × ℚ)) (maxp : ℚ) : List (Int × ℚ) :=
  if 0 < maxp then (calculate_clipping_loss pv maxp).1 else pv

/-- The loss percentage displayed by line 233 inside the positive
max_power_kw branch: clipping loss sum over pv sum times 100.  The
float division 0/0 produced when the pv total is 0 yields NaN, modelled
as none. -/
def loss_percentage (pv : List (Int × ℚ)) (maxp : ℚ) : Option ℚ :=
  if sumVals pv = 0 then none
  else some (sumVals (calculate_clipping_loss pv maxp).2 / sumVals pv * 100)

/-- The module body of lines 214-241: load both files, gate the clipping
on positive max_power_kw, then run the economics. -/
def run_analysis (pvRows priceRows : List (String × ℚ)) (maxp tariff : ℚ) :
    Option (List (String × EconValue)) :=
  match load_series pvRows, load_series priceRows with
  | some pv, some price => calculate_economics (analysis_pv pv maxp) price tariff
  | _, _ => none

/-- Definition following the specification wording of claim C1: the
feed-in tariff is paid on the deliverable energy only at intervals with
non-negative price, and the cent total is divided by 100. -/
def spec_total_eeg_revenue (pvA pricesCtS : List (Int × ℚ)) (tariff : ℚ) : ℚ :=
  ((List.zip pvA pricesCtS).foldr
    (fun pq acc => if 0 ≤ pq.2.2 then pq.1.2 * tariff + acc else acc) 0) / 100

/-- Definition following the specification wording of claim C4: the
number of aligned intervals with positive pv energy and negative price,
divided by 4. -/
def spec_curtailment_hours (pvA pricesCtS : List (Int × ℚ)) : ℚ :=
  (((List.zip pvA pricesCtS).filter
      (fun pq => decide (0 < pq.1.2 ∧ pq.2.2 < 0))).length : ℚ) / 4

/-- Membership through ordered insertion. -/
theorem mem_insertByKey (x y : Int × ℚ) (l : List (Int × ℚ)) :
    y ∈ insertByKey x l ↔ y = x ∨ y ∈ l := by
  induction l with
  | nil => simp [insertByKey]
  | cons a t ih =>
    simp only [insertByKey]
    split
    · simp [List.mem_cons]
    · simp only [List.mem_cons, ih]
      tauto

/-- Ordered insertion preserves sortedness by key. -/
theorem sorted_insertByKey (x : Int × ℚ) (l : List (Int × ℚ))
    (h : l.Pairwise (fun a b => a.1 ≤ b.1)) :
    (insertByKey x l).Pairwise (fun a b => a.1 ≤ b.1) := by
  induction l with
  | nil => simp [insertByKey]
  | cons a t ih =>
    rcases List.pairwise_cons.mp h with ⟨ha, ht⟩
    simp only [insertByKey]
    split
    · rename_i hle
      refine List.pairwise_cons.mpr ⟨?_, h⟩
      intro y hy
      rcases List.mem_cons.mp hy with rfl | hyt
      · exact hle
      · exact le_trans hle (ha y hyt)
    · rename_i hnle
      refine List.pairwise_cons.mpr ⟨?_, ih ht⟩
      intro y hy
      rcases (mem_insertByKey x y t).mp hy with rfl | hyt
      · exact le_of_lt (lt_of_not_le hnle)
      · exact ha y hyt

/-- The loader's sort produces a series sorted by key, ascending. -/
theorem sorted_sortByKey (l : List (Int × ℚ)) :
    (sortByKey l).Pairwise (fun a b => a.1 ≤ b.1) := by
  induction l with
  | nil => simp [sortByKey]
  | cons a t ih => exact sorted_insertByKey a _ ih

/-- The nearest-entry fold only ever returns a list member or the
accumulator it started from. -/
theorem nearestFold_mem (t : Int) :
    ∀ (l : List (Int × ℚ)) (acc : Option (Int × ℚ)) (b : Int × ℚ),
      l.foldl (fun best p =>
          match best with
          | none => some p
          | some c =>
            if (p.1 - t).natAbs < (c.1 - t).natAbs then some p else some c)
        acc = some b → b ∈ l ∨ acc = some b := by
  intro l
  induction l with
  | nil => exact fun acc b h => Or.inr h
  | cons a l ih =>
    intro acc b h
    rw [List.foldl_cons] at h
    rcases ih _ b h with hb | hb
    · exact Or.inl (List.mem_cons_of_mem _ hb)
    · cases acc with
      | none =>
        exact Or.inl (Option.some.inj hb ▸ List.mem_cons_self a l)
      | some c =>
        change (if (a.1 - t).natAbs < (c.1 - t).natAbs
          then some a else some c) = some b at hb
        by_cases hd : (a.1 - t).natAbs < (c.1 - t).natAbs
        · rw [if_pos hd] at hb
          exact Or.inl (Option.some.inj hb ▸ List.mem_cons_self a l)
        · rw [if_neg hd] at hb
          exact Or.inr hb

/-- A nearest entry is an entry of the price series. -/
theorem nearestEntry_mem (price : List (Int × ℚ)) (t : Int) (b : Int × ℚ)
    (h : nearestEntry price t = some b) : b ∈ price := by
  rcases nearestFold_mem t price none b h with hb | hb
  · exact hb
  · exact Option.noConfusion hb

/-- When every price timestamp is more than 15 minutes away, the
tolerance reindex produces NaN. -/
theorem nearestWithin_none (price : List (Int × ℚ)) (t : Int)
    (h : ∀ u ∈ price, 15 < (u.1 - t).natAbs) : nearestWithin price t = none := by
  unfold nearestWithin
  cases he : nearestEntry price t with
  | none => rfl
  | some b =>
    show (if (b.1 - t).natAbs ≤ 15 then some b.2 else none) = none
    rw [if_neg (not_le.mpr (h b (nearestEntry_mem price t b he)))]

/-- Value-column sum of a cons cell. -/
theorem sumVals_cons (p : Int × ℚ) (l : List (Int × ℚ)) :
    sumVals (p :: l) = p.2 + sumVals l := by
  simp [sumVals]

/-- Summing a pointwise difference of equally long keyed series is the
difference of the sums. -/
theorem sumVals_sub (xs ys : List (Int × ℚ)) (h : xs.length = ys.length) :
    sumVals (List.zipWith (fun a b => (a.1, a.2 - b.2)) xs ys)
      = sumVals xs - sumVals ys := by
  induction xs generalizing ys with
  | nil =>
    cases ys with
    | nil => simp [sumVals]
    | cons b m => simp at h
  | cons a l ih =>
    cases ys with
    | nil => simp at h
    | cons b m =>
      have h2 : l.length = m.length := by simpa using h
      rw [List.zipWith_cons_cons, sumVals_cons, sumVals_cons, sumVals_cons,
        ih m h2]
      ring

/-- Both components of a successful alignment have the same length. -/
theorem alignPair_length (pv price pvA pricesA : List (Int × ℚ))
    (h : alignPair pv price = some (pvA, pricesA)) :
    pvA.length = pricesA.length := by
  unfold alignPair at h
  by_cases hc : (commonIndex pv price).isEmpty
  · rw [if_pos hc] at h
    by_cases hk : (pv.filter (fun p => (nearestWithin price p.1).isSome)).isEmpty
    · rw [if_pos hk] at h
      exact Option.noConfusion h
    · rw [if_neg hk] at h
      injection h with h1
      injection h1 with e1 e2
      rw [← e1, ← e2, List.length_map]
  · rw [if_neg hc] at h
    injection h with h1
    injection h1 with e1 e2
    rw [← e1, ← e2, List.length_map, List.length_map]

/-- Market and EEG series over one aligned pair have the same length. -/
theorem market_eeg_length (pvA pricesA : List (Int × ℚ)) (tariff : ℚ)
    (h : pvA.length = pricesA.length) :
    (marketSeries pvA pricesA).length = (eegSeries pvA tariff).length := by
  simp [marketSeries, eegSeries, pricesCt, List.length_zipWith, h]

/-- Zipping two maps over one list is a single map. -/
theorem zipWith_map_same (k : (Int × ℚ) → (Int × ℚ) → (Int × ℚ))
    (f g : (Int × ℚ) → (Int × ℚ)) (l : List (Int × ℚ)) :
    List.zipWith k (l.map f) (l.map g) = l.map (fun x => k (f x) (g x)) := by
  induction l with
  | nil => rfl
  | cons a t ih => simp [ih]

/-- Closed form of the clipped-energy component. -/
theorem clipped_energy_eq (pv : List (Int × ℚ)) (maxp : ℚ) :
    (calculate_clipping_loss pv maxp).1
      = pv.map (fun p => (p.1, min (p.2 * 4) maxp / 4)) := by
  have h : (calculate_clipping_loss pv maxp).1
      = ((pv.map (fun p => (p.1, p.2 * 4))).map
          (fun p => (p.1, min p.2 maxp))).map (fun p => (p.1, p.2 / 4)) := rfl
  rw [h, List.map_map, List.map_map]
  rfl

/-- Closed form of the clipping-loss component. -/
theorem clipping_loss_eq (pv : List (Int × ℚ)) (maxp : ℚ) :
    (calculate_clipping_loss pv maxp).2
      = pv.map (fun p => (p.1, p.2 - min (p.2 * 4) maxp / 4)) := by
  have h : (calculate_clipping_loss pv maxp).2
      = (List.zipWith (fun a b => (a.1, a.2 - b.2))
          (pv.map (fun p => (p.1, p.2 * 4)))
          ((pv.map (fun p => (p.1, p.2 * 4))).map
            (fun p => (p.1, min p.2 maxp)))).map (fun p => (p.1, p.2 / 4)) := rfl
  rw [h, List.map_map, zipWith_map_same, List.map_map]
  refine List.map_congr_left ?_
  intro x hx
  simp only [Function.comp, Prod.mk.injEq]
  exact ⟨trivial, by ring⟩

/-- Element access in a pointwise difference of keyed series. -/
theorem get_zipWith_sub :
    ∀ (xs ys : List (Int × ℚ)) (i : Nat)
      (hz : i < (List.zipWith (fun a b => (a.1, a.2 - b.2)) xs ys).length)
      (hx : i < xs.length) (hy : i < ys.length),
      (List.zipWith (fun a b => (a.1, a.2 - b.2)) xs ys).get ⟨i, hz⟩
        = ((xs.get ⟨i, hx⟩).1, (xs.get ⟨i, hx⟩).2 - (ys.get ⟨i, hy⟩).2)
  | _ :: _, _ :: _, 0, _, _, _ => rfl
  | a :: l, b :: m, i + 1, hz, hx, hy =>
    get_zipWith_sub l m i (by simpa using hz) (by simpa using hx)
      (by simpa using hy)
  | [], _, i, hz, hx, hy => absurd hx (Nat.not_lt_zero i)
  | _ :: _, [], i, hz, hx, hy => absurd hy (Nat.not_lt_zero i)

/-- C2: the claim that skipping a row with an unparseable timestamp does
not change the (timestamp, value) pairs of the other rows FAILS on the
code.  With a bad first row, the positional truncation of line 100 pairs
the surviving second-row timestamp with the skipped row's value 10
instead of the second row's own value 20. -/
theorem row_value_misalignment :
    load_series [("??", (10 : ℚ)), ("01.01.2025 00:15", 20)]
      = some [(DT.minutes ⟨2025, 1, 1, 0, 15⟩, 10)]
    ∧ (10 : ℚ) ≠ 20 :=
  ⟨by decide, by norm_num⟩

/-- C3 counterexample: two rows with the same timestamp label both
survive loading, so the loaded index is not strictly increasing and no
last-occurrence deduplication happens. -/
theorem duplicate_timestamps_survive :
    load_series [("01.01.2025 00:00", (1 : ℚ)), ("01.01.2025 00:00", 2)]
      = some [(DT.minutes ⟨2025, 1, 1, 0, 0⟩, 1),
              (DT.minutes ⟨2025, 1, 1, 0, 0⟩, 2)]
    ∧ ¬ List.Pairwise (fun a b : Int × ℚ => a.1 < b.1)
        [(DT.minutes ⟨2025, 1, 1, 0, 0⟩, (1 : ℚ)),
         (DT.minutes ⟨2025, 1, 1, 0, 0⟩, 2)] :=
  ⟨by decide, by decide⟩

/-- C3 amended: every successfully loaded series is sorted by timestamp
in non-decreasing order; duplicate timestamps are kept, not merged. -/
theorem load_series_sorted (rows : List (String × ℚ)) (l : List (Int × ℚ))
    (h : load_series rows = some l) :
    List.Pairwise (fun a b : Int × ℚ => a.1 ≤ b.1) l := by
  unfold load_series at h
  by_cases hp : (parsedStamps rows).isEmpty
  · rw [if_pos hp] at h
    exact Option.noConfusion h
  · rw [if_neg hp] at h
    have he := Option.some.inj h
    subst he
    exact sorted_sortByKey _

/-- Witness for the amended C3 theorem at a concrete input. -/
theorem load_series_sorted_witness :
    load_series [("01.01.2025 00:00", (5 : ℚ))]
      = some [(DT.minutes ⟨2025, 1, 1, 0, 0⟩, 5)]
    ∧ List.Pairwise (fun a b : Int × ℚ => a.1 ≤ b.1)
        [(DT.minutes ⟨2025, 1, 1, 0, 0⟩, (5 : ℚ))] :=
  ⟨by decide,
   load_series_sorted [("01.01.2025 00:00", (5 : ℚ))]
     [(DT.minutes ⟨2025, 1, 1, 0, 0⟩, 5)] (by decide)⟩

/-- C5 counterexample: a label carrying the four-digit year 2024 is NOT
parsed to a timestamp in 2024; the year is overwritten with the fixed
target year 2025 by line 58. -/
theorem written_year_not_preserved :
    parse_timestamp "01.06.2024 12:00" = some ⟨2025, 6, 1, 12, 0⟩
    ∧ (2025 : Nat) ≠ 2024 :=
  ⟨by decide, by decide⟩

/-- C5 amended: a full-date label parses to the written day, month and
time, but its year is forced to the fixed target year 2025 whenever that
replacement forms a valid date; the written year is not preserved. -/
theorem full_date_year_forced (s : String) (y m d hh mm : Nat)
    (hnan : containsNan s = false)
    (hparse : pd_to_datetime (trimChars s.data) = some ⟨y, m, d, hh, mm⟩)
    (hy : y ≠ 2025) (hd : d ≤ daysInMonth 2025 m) :
    parse_timestamp s = some ⟨2025, m, d, hh, mm⟩ := by
  simp only [parse_timestamp, hnan, Bool.false_eq_true, if_false,
    strategy1, hparse, forceTargetYear]
  simp [hy, hd]

/-- Witness for the amended C5 theorem at a concrete label. -/
theorem full_date_year_forced_witness :
    containsNan "01.03.2024 08:30" = false
    ∧ pd_to_datetime (trimChars "01.03.2024 08:30".data)
        = some ⟨2024, 3, 1, 8, 30⟩
    ∧ (2024 : Nat) ≠ 2025
    ∧ (1 : Nat) ≤ daysInMonth 2025 3
    ∧ parse_timestamp "01.03.2024 08:30" = some ⟨2025, 3, 1, 8, 30⟩ :=
  ⟨by decide, by decide, by decide, by decide,
   full_date_year_forced _ 2024 3 1 8 30 (by decide) (by decide)
     (by decide) (by decide)⟩

/-- C7 counterexample: with an all-zero PV series the displayed loss
percentage of line 233 is the float division 0/0, i.e. NaN, not 0. -/
theorem zero_pv_gives_nan :
    loss_percentage [((0 : Int), (0 : ℚ))] 10 = none
    ∧ (none : Option ℚ) ≠ some 0 :=
  ⟨by norm_num [loss_percentage, sumVals], by decide⟩

/-- C7 amended: whenever the PV total is 0 the computed loss percentage
is the undefined division 0/0 (NaN), never the guarded value 0. -/
theorem loss_percentage_zero_total (pv : List (Int × ℚ)) (maxp : ℚ)
    (h : sumVals pv = 0) : loss_percentage pv maxp = none := by
  unfold loss_percentage
  rw [if_pos h]

/-- Witness for the amended C7 theorem at a concrete input. -/
theorem loss_percentage_zero_total_witness :
    sumVals [((0 : Int), (0 : ℚ)), (15, 0)] = 0
    ∧ loss_percentage [((0 : Int), (0 : ℚ)), (15, 0)] 3 = none :=
  ⟨by norm_num [sumVals], loss_percentage_zero_total _ 3 (by norm_num [sumVals])⟩

/-- C1 counterexample: on an aligned pair with a negative-price interval
the code reports a total EEG revenue of 20 (tariff paid on every
interval, in cents, no division by 100), while the specified rule -
tariff only on non-negative-price intervals, cents divided by 100 -
gives 1/10. -/
theorem eeg_payment_rule_cex :
    (calculate_economics [((0 : Int), (1 : ℚ)), (15, 1)]
        [((0 : Int), (100 : ℚ)), (15, -100)] 10).map
      (List.lookup "total_eeg_revenue")
      = some (some (EconValue.scalar 20))
    ∧ spec_total_eeg_revenue [((0 : Int), (1 : ℚ)), (15, 1)]
        (pricesCt [((0 : Int), (100 : ℚ)), (15, -100)]) 10 = 1 / 10
    ∧ (20 : ℚ) ≠ 1 / 10 := by
  refine ⟨?_, by norm_num [spec_total_eeg_revenue, pricesCt], by norm_num⟩
  have h : alignPair [((0 : Int), (1 : ℚ)), (15, 1)]
      [((0 : Int), (100 : ℚ)), (15, -100)]
      = some ([(0, 1), (15, 1)], [(0, 100), (15, -100)]) := by decide
  unfold calculate_economics
  rw [h]
  simp only [Option.map_some']
  have h2 : List.lookup "total_eeg_revenue"
      (econ_results [((0 : Int), (1 : ℚ)), (15, 1)]
        [((0 : Int), (100 : ℚ)), (15, -100)] 10)
      = some (EconValue.scalar
          (sumVals (eegSeries [((0 : Int), (1 : ℚ)), (15, 1)] 10))) := rfl
  rw [h2]
  norm_num [sumVals, eegSeries]

/-- C1 amended: the total EEG revenue of the code is the sum of aligned
pv energy times the tariff over ALL intervals, in cents, without any
price-sign condition and without the division by 100; in particular it
does not depend on the price values at all. -/
theorem eeg_total_unconditional (pv price : List (Int × ℚ)) (tariff : ℚ)
    (pvA pricesA pricesB : List (Int × ℚ))
    (h : alignPair pv price = some (pvA, pricesA)) :
    (calculate_economics pv price tariff).map (List.lookup "total_eeg_revenue")
      = some (some (EconValue.scalar
          (sumVals (pvA.map (fun p => (p.1, p.2 * tariff))))))
    ∧ List.lookup "total_eeg_revenue" (econ_results pvA pricesB tariff)
      = List.lookup "total_eeg_revenue" (econ_results pvA pricesA tariff) := by
  constructor
  · unfold calculate_economics
    rw [h]
    rfl
  · rfl

/-- Witness for the amended C1 theorem at a concrete input. -/
theorem eeg_total_unconditional_witness :
    alignPair [((0 : Int), (1 : ℚ))] [((0 : Int), (40 : ℚ))]
      = some ([(0, 1)], [(0, 40)])
    ∧ (calculate_economics [((0 : Int), (1 : ℚ))] [((0 : Int), (40 : ℚ))] 10).map
        (List.lookup "total_eeg_revenue")
      = some (some (EconValue.scalar
          (sumVals ([((0 : Int), (1 : ℚ))].map (fun p => (p.1, p.2 * 10)))))) :=
  ⟨by decide,
   (eeg_total_unconditional [((0 : Int), (1 : ℚ))] [((0 : Int), (40 : ℚ))] 10
     [((0 : Int), (1 : ℚ))] [((0 : Int), (40 : ℚ))] [((0 : Int), (-5 : ℚ))]
     (by decide)).1⟩

/-- C4 counterexample: on an input where the specified formula would
give a curtailment of 1/4 hour, the results dict of the code holds no
curtailment-hours entry at all. -/
theorem curtailment_metric_missing :
    (calculate_economics [((0 : Int), (1 : ℚ)), (15, 1)]
        [((0 : Int), (50 : ℚ)), (15, -80)] 10).map
      (List.lookup "curtailment_hours")
      = some none
    ∧ spec_curtailment_hours [((0 : Int), (1 : ℚ)), (15, 1)]
        (pricesCt [((0 : Int), (50 : ℚ)), (15, -80)]) = 1 / 4 := by
  constructor
  · have h : alignPair [((0 : Int), (1 : ℚ)), (15, 1)]
        [((0 : Int), (50 : ℚ)), (15, -80)]
        = some ([(0, 1), (15, 1)], [(0, 50), (15, -80)]) := by decide
    unfold calculate_economics
    rw [h]
    rfl
  · norm_num [spec_curtailment_hours, pricesCt, List.filter]

/-- C4 amended: no successful analysis result contains a
curtailment-hours scalar; the code never computes one. -/
theorem no_curtailment_metric (pv price : List (Int × ℚ)) (tariff : ℚ)
    (r : List (String × EconValue))
    (h : calculate_economics pv price tariff = some r) :
    List.lookup "curtailment_hours" r = none := by
  unfold calculate_economics at h
  rcases Option.map_eq_some'.mp h with ⟨ab, hab, hr⟩
  subst hr
  rfl

/-- Witness for the amended C4 theorem at a concrete input. -/
theorem no_curtailment_metric_witness :
    calculate_economics [((0 : Int), (2 : ℚ))] [((0 : Int), (30 : ℚ))] 8
      = some (econ_results [((0 : Int), (2 : ℚ))] [((0 : Int), (30 : ℚ))] 8)
    ∧ List.lookup "curtailment_hours"
        (econ_results [((0 : Int), (2 : ℚ))] [((0 : Int), (30 : ℚ))] 8)
      = none := by
  have h : calculate_economics [((0 : Int), (2 : ℚ))] [((0 : Int), (30 : ℚ))] 8
      = some (econ_results [((0 : Int), (2 : ℚ))] [((0 : Int), (30 : ℚ))] 8) := by
    have halign : alignPair [((0 : Int), (2 : ℚ))] [((0 : Int), (30 : ℚ))]
        = some ([(0, 2)], [(0, 30)]) := by decide
    unfold calculate_economics
    rw [halign]
    rfl
  exact ⟨h, no_curtailment_metric _ _ 8 _ h⟩

/-- C6 counterexample: at max_power_kw = 0 the module-body gate skips
clipping entirely and analyses the raw pv energy 1, although the
specified clipping formula min(power, 0)/4 would give 0. -/
theorem zero_maxpower_gate_cex :
    analysis_pv [((0 : Int), (1 : ℚ))] 0 = [(0, 1)]
    ∧ min ((1 : ℚ) * 4) 0 / 4 = 0
    ∧ (1 : ℚ) ≠ 0 := by
  refine ⟨?_, by norm_num, by norm_num⟩
  unfold analysis_pv
  rw [if_neg (lt_irrefl (0 : ℚ))]

/-- C6 amended: for strictly positive max_power_kw the analysed series
is the clipped energy min(energy x 4, max_power)/4, the clipping loss is
energy minus clipped energy, and every loss entry is non-negative; at
max_power_kw = 0 the pipeline bypasses clipping (see the
counterexample). -/
theorem clipping_formulas (pv : List (Int × ℚ)) (maxp : ℚ) (h : 0 < maxp) :
    analysis_pv pv maxp = pv.map (fun p => (p.1, min (p.2 * 4) maxp / 4))
    ∧ (calculate_clipping_loss pv maxp).2
        = pv.map (fun p => (p.1, p.2 - min (p.2 * 4) maxp / 4))
    ∧ ∀ p ∈ (calculate_clipping_loss pv maxp).2, 0 ≤ p.2 := by
  refine ⟨?_, clipping_loss_eq pv maxp, ?_⟩
  · unfold analysis_pv
    rw [if_pos h]
    exact clipped_energy_eq pv maxp
  · intro p hp
    rw [clipping_loss_eq] at hp
    rcases List.mem_map.mp hp with ⟨x, hx, rfl⟩
    have hmin : min (x.2 * 4) maxp ≤ x.2 * 4 := min_le_left _ _
    show 0 ≤ x.2 - min (x.2 * 4) maxp / 4
    linarith

/-- Witness for the amended C6 theorem at a concrete input. -/
theorem clipping_formulas_witness :
    (0 : ℚ) < 8
    ∧ analysis_pv [((0 : Int), (1 : ℚ)), (15, 3)] 8
        = [((0 : Int), (1 : ℚ)), (15, 3)].map
            (fun p => (p.1, min (p.2 * 4) 8 / 4)) :=
  ⟨by norm_num,
   (clipping_formulas [((0 : Int), (1 : ℚ)), (15, 3)] 8 (by norm_num)).1⟩

/-- C8: when no pv timestamp equals any price timestamp and every price
timestamp is more than 15 minutes from every pv timestamp, the analysis
fails with None (the NoOverlap error path) and produces no results. -/
theorem no_overlap_fails (pv price : List (Int × ℚ)) (tariff : ℚ)
    (hex : ∀ t ∈ pv, ∀ u ∈ price, t.1 ≠ u.1)
    (htol : ∀ t ∈ pv, ∀ u ∈ price, 15 < (u.1 - t.1).natAbs) :
    calculate_economics pv price tariff = none := by
  have hc : commonIndex pv price = [] := by
    unfold commonIndex
    rw [List.dedup_eq_nil, List.filter_eq_nil_iff]
    intro a ha
    rcases List.mem_map.mp ha with ⟨t, ht, rfl⟩
    intro hcont
    have hm : t.1 ∈ price.map Prod.fst := List.elem_iff.mp hcont
    rcases List.mem_map.mp hm with ⟨u, hu, he⟩
    exact hex t ht u hu he.symm
  have hk : pv.filter (fun p => (nearestWithin price p.1).isSome) = [] := by
    rw [List.filter_eq_nil_iff]
    intro p hp
    rw [nearestWithin_none price p.1 (fun u hu => htol p hp u hu)]
    simp
  unfold calculate_economics alignPair
  rw [hc, hk]
  rfl

/-- Witness for the C8 theorem at concrete disjoint series. -/
theorem no_overlap_fails_witness :
    calculate_economics [((0 : Int), (1 : ℚ))] [((100 : Int), (5 : ℚ))] 10
      = none :=
  no_overlap_fails _ _ 10 (by decide) (by decide)

/-- C9: the full pipeline - loading both files, the clipping gate and
the economics - is a pure function: equal input files and equal
parameters give equal outputs. -/
theorem run_analysis_deterministic (a1 a2 b1 b2 : List (String × ℚ))
    (m1 m2 t1 t2 : ℚ) (ha : a1 = a2) (hb : b1 = b2) (hm : m1 = m2)
    (ht : t1 = t2) :
    run_analysis a1 b1 m1 t1 = run_analysis a2 b2 m2 t2 := by
  rw [ha, hb, hm, ht]

/-- Witness for the C9 theorem at a concrete run. -/
theorem run_analysis_deterministic_witness :
    run_analysis [("01.01.2025 00:00", (1 : ℚ))]
        [("01.01.2025 00:00", (50 : ℚ))] 8 10
      = run_analysis [("01.01.2025 00:00", (1 : ℚ))]
        [("01.01.2025 00:00", (50 : ℚ))] 8 10 :=
  run_analysis_deterministic _ _ _ _ _ _ _ _ rfl rfl rfl rfl

/-- C10: the reported total opportunity cost is exactly the total market
revenue minus the total EEG revenue, and every entry of the opportunity
series is the market entry minus the EEG entry at the same position. -/
theorem opportunity_cost_relation (pv price : List (Int × ℚ)) (tariff : ℚ)
    (pvA pricesA : List (Int × ℚ))
    (h : alignPair pv price = some (pvA, pricesA)) :
    (calculate_economics pv price tariff).map
        (List.lookup "total_opportunity_cost")
      = some (some (EconValue.scalar
          (sumVals (marketSeries pvA pricesA)
            - sumVals (eegSeries pvA tariff))))
    ∧ ∀ (i : Nat) (ho : i < (oppSeries pvA pricesA tariff).length)
        (hmar : i < (marketSeries pvA pricesA).length)
        (hee : i < (eegSeries pvA tariff).length),
        (oppSeries pvA pricesA tariff).get ⟨i, ho⟩
          = (((marketSeries pvA pricesA).get ⟨i, hmar⟩).1,
             ((marketSeries pvA pricesA).get ⟨i, hmar⟩).2
               - ((eegSeries pvA tariff).get ⟨i, hee⟩).2) := by
  constructor
  · have hlen := alignPair_length pv price pvA pricesA h
    have hsum : sumVals (oppSeries pvA pricesA tariff)
        = sumVals (marketSeries pvA pricesA)
          - sumVals (eegSeries pvA tariff) := by
      unfold oppSeries
      exact sumVals_sub _ _ (market_eeg_length pvA pricesA tariff hlen)
    unfold calculate_economics
    rw [h]
    simp only [Option.map_some']
    rw [← hsum]
    rfl
  · intro i ho hmar hee
    exact get_zipWith_sub (marketSeries pvA pricesA) (eegSeries pvA tariff)
      i ho hmar hee

/-- Witness for the C10 theorem at a concrete input. -/
theorem opportunity_cost_relation_witness :
    alignPair [((0 : Int), (2 : ℚ))] [((0 : Int), (50 : ℚ))]
      = some ([(0, 2)], [(0, 50)])
    ∧ (calculate_economics [((0 : Int), (2 : ℚ))] [((0 : Int), (50 : ℚ))] 7).map
        (List.lookup "total_opportunity_cost")
      = some (some (EconValue.scalar
          (sumVals (marketSeries [((0 : Int), (2 : ℚ))] [((0 : Int), (50 : ℚ))])
            - sumVals (eegSeries [((0 : Int), (2 : ℚ))] 7)))) :=
  ⟨by decide,
   (opportunity_cost_relation [((0 : Int), (2 : ℚ))] [((0 : Int), (50 : ℚ))] 7
     [((0 : Int), (2 : ℚ))] [((0 : Int), (50 : ℚ))] (by decide)).1⟩
